import Mathlib

/-!
Verification development for the rust-crate-diffs dependency-diff core.

The definitions below are a shallow embedding of the canonical
interval-based implementation in src/src/domain/semver/mod.rs and the
dependency-diff engine in src/src/domain/cargo_toml/mod.rs.  Rust u64
components are modelled as Nat; the source's checked_add calls panic at
u64::MAX, so bumping is modelled as plain successor and theorems that
depend on endpoints staying below u64::MAX carry explicit bounds.
Logging side effects (log::error!, log::warn!) are modelled as explicit
booleans / counters threaded through the functions.
-/

namespace RustCrateDiffs

/-- Models the u64::MAX constant used for open upper bounds. -/
def U64MAX : Nat := 18446744073709551615

namespace Semver

/-- Models semver::Version restricted to the data this module puts into
range endpoints: every endpoint is built with semver::Version::new or a
bump helper, so prerelease and build metadata are always empty and the
triple is the whole state.  Ordering of such versions is lexicographic
on (major, minor, patch). -/
@[ext]
structure Version where
  major : Nat
  minor : Nat
  patch : Nat
deriving DecidableEq, Repr

/-- Lexicographic strict order on version triples: models Ord for
semver::Version at empty prerelease/build. -/
def Version.vlt (a b : Version) : Prop :=
  a.major < b.major ∨
    (a.major = b.major ∧
      (a.minor < b.minor ∨ (a.minor = b.minor ∧ a.patch < b.patch)))

instance (a b : Version) : Decidable (Version.vlt a b) := by
  unfold Version.vlt; infer_instance

/-- Lexicographic non-strict order on version triples. -/
def Version.vle (a b : Version) : Prop :=
  Version.vlt a b ∨ a = b

instance (a b : Version) : Decidable (Version.vle a b) := by
  unfold Version.vle; infer_instance

end Semver

/-- Models semver::Op restricted to the variants the semver parser can
produce (the Rust enum is non-exhaustive; the catch-all arms in the
source are unreachable through parsing). -/
inductive Op where
  | Exact
  | Greater
  | GreaterEq
  | Less
  | LessEq
  | Tilde
  | Caret
  | Wildcard
deriving DecidableEq, Repr

/-- Models semver::Comparator: operator, mandatory major, optional minor
and patch, prerelease identifier (empty string for none). -/
structure Comparator where
  op : Op
  major : Nat
  minor : Option Nat
  patch : Option Nat
  pre : String
deriving DecidableEq, Repr

/-- Models semver::VersionReq: the list of comparators parsed from one
requirement string. -/
structure VersionReq where
  comparators : List Comparator
deriving DecidableEq, Repr

/-- Models the Version requirement wrapper of src/src/domain/semver/mod.rs
(re-exported as SemverVersion); it holds the parsed VersionReq. -/
structure Version where
  req : VersionReq
deriving DecidableEq, Repr

/-- Models the Change enum of src/src/domain/semver/mod.rs. -/
inductive Change where
  | Major
  | Minor
  | Patch
  | None
  | Unknown
deriving DecidableEq, Repr

/-- Display marker for each Change variant (fmt::Display for Change).
The src snapshot stores these literals with damaged text encoding; the
repository's own tests pin the intended glyphs used here. -/
def Change.display : Change → String
  | .Major => "❗"
  | .Minor => "📦"
  | .Patch => "🔧"
  | .None => "😐"
  | .Unknown => "🤷"

/-- Models Range of semver::Version values; the field named stop here is
the Rust field named end (a reserved word in Lean). -/
@[ext]
structure VRange where
  start : Semver.Version
  stop : Semver.Version
deriving DecidableEq, Repr

namespace Version

open Semver (Version.vlt Version.vle)

/-- Models Version::range_compare: Equal iff the ranges coincide, then
the containment/ordering disjunctions from the source, else None
(incomparable). -/
def range_compare (a b : VRange) : Option Ordering :=
  if a = b then some .eq
  else if a.stop.vle b.start ∨ (a.start.vlt b.start ∧ a.stop = b.stop) ∨
      (a.start = b.start ∧ a.stop.vlt b.stop) then some .lt
  else if b.stop.vle a.start ∨ (b.start.vlt a.start ∧ a.stop = b.stop) ∨
      (a.start = b.start ∧ b.stop.vlt a.stop) then some .gt
  else none

/-- Models Version::version_with_bumped_major (checked_add panics only at
u64::MAX, modelled as plain successor). -/
def version_with_bumped_major (major : Nat) : Semver.Version :=
  ⟨major + 1, 0, 0⟩

/-- Models Version::version_with_bumped_minor. -/
def version_with_bumped_minor (major minor : Nat) : Semver.Version :=
  ⟨major, minor + 1, 0⟩

/-- Models Version::version_with_bumped_patch. -/
def version_with_bumped_patch (major minor patch : Nat) : Semver.Version :=
  ⟨major, minor, patch + 1⟩

/-- Models Version::caret_range. -/
def caret_range (major : Nat) (minor patch : Option Nat) : VRange :=
  match major with
  | 0 =>
    match minor with
    | some 0 =>
      match patch with
      | some patch_version =>
        ⟨⟨0, 0, patch_version⟩, version_with_bumped_patch 0 0 patch_version⟩
      | none => ⟨⟨0, 0, 0⟩, version_with_bumped_minor 0 0⟩
    | some (minor_version + 1) =>
      match patch with
      | some patch_version =>
        ⟨⟨0, minor_version + 1, patch_version⟩,
          version_with_bumped_minor 0 (minor_version + 1)⟩
      | none =>
        ⟨⟨0, minor_version + 1, 0⟩, version_with_bumped_minor 0 (minor_version + 1)⟩
    | none => ⟨⟨0, 0, 0⟩, ⟨1, 0, 0⟩⟩
  | m + 1 =>
    match minor with
    | some minor_version =>
      match patch with
      | some patch_version =>
        ⟨⟨m + 1, minor_version, patch_version⟩, version_with_bumped_major (m + 1)⟩
      | none => ⟨⟨m + 1, minor_version, 0⟩, version_with_bumped_major (m + 1)⟩
    | none => ⟨⟨m + 1, 0, 0⟩, version_with_bumped_major (m + 1)⟩

/-- Models Version::exact_range. -/
def exact_range (major : Nat) (minor patch : Option Nat) : VRange :=
  match minor with
  | some minor_version =>
    match patch with
    | some patch_version =>
      ⟨⟨major, minor_version, patch_version⟩,
        version_with_bumped_patch major minor_version patch_version⟩
    | none => ⟨⟨major, minor_version, 0⟩, version_with_bumped_minor major minor_version⟩
  | none => ⟨⟨major, 0, 0⟩, version_with_bumped_major major⟩

/-- Models Version::greater_range. -/
def greater_range (major : Nat) (minor patch : Option Nat) : VRange :=
  let stop : Semver.Version := ⟨U64MAX, U64MAX, U64MAX⟩
  match minor with
  | some minor_version =>
    match patch with
    | some patch_version =>
      ⟨version_with_bumped_patch major minor_version patch_version, stop⟩
    | none => ⟨version_with_bumped_minor major minor_version, stop⟩
  | none => ⟨version_with_bumped_major major, stop⟩

/-- Models Version::greater_or_equal_range. -/
def greater_or_equal_range (major : Nat) (minor patch : Option Nat) : VRange :=
  let stop : Semver.Version := ⟨U64MAX, U64MAX, U64MAX⟩
  match minor with
  | some minor_version =>
    match patch with
    | some patch_version => ⟨⟨major, minor_version, patch_version⟩, stop⟩
    | none => ⟨⟨major, minor_version, 0⟩, stop⟩
  | none => ⟨⟨major, 0, 0⟩, stop⟩

/-- Models Version::less_range. -/
def less_range (major : Nat) (minor patch : Option Nat) : VRange :=
  match minor with
  | some minor_version =>
    match patch with
    | some patch_version => ⟨⟨0, 0, 0⟩, ⟨major, minor_version, patch_version⟩⟩
    | none => ⟨⟨0, 0, 0⟩, ⟨major, minor_version, 0⟩⟩
  | none => ⟨⟨0, 0, 0⟩, ⟨major, 0, 0⟩⟩

/-- Models Version::less_or_equal_range. -/
def less_or_equal_range (major : Nat) (minor patch : Option Nat) : VRange :=
  match minor with
  | some minor_version =>
    match patch with
    | some patch_version =>
      ⟨⟨0, 0, 0⟩, version_with_bumped_patch major minor_version patch_version⟩
    | none => ⟨⟨0, 0, 0⟩, version_with_bumped_minor major minor_version⟩
  | none => ⟨⟨0, 0, 0⟩, version_with_bumped_major major⟩

/-- Models Version::tilde_range. -/
def tilde_range (major : Nat) (minor patch : Option Nat) : VRange :=
  match minor with
  | some minor_version =>
    match patch with
    | some patch_version =>
      ⟨⟨major, minor_version, patch_version⟩,
        version_with_bumped_minor major minor_version⟩
    | none => ⟨⟨major, minor_version, 0⟩, version_with_bumped_minor major minor_version⟩
  | none => ⟨⟨major, 0, 0⟩, version_with_bumped_major major⟩

/-- Models Version::wildcard_range (the source debug-asserts patch is
absent; the patch argument is ignored as in the source body). -/
def wildcard_range (major : Nat) (minor : Option Nat) (_patch : Option Nat) : VRange :=
  match minor with
  | some minor_version =>
    ⟨⟨major, minor_version, 0⟩, version_with_bumped_minor major minor_version⟩
  | none => ⟨⟨major, 0, 0⟩, version_with_bumped_major major⟩

/-- The per-comparator range dispatch inside Version::comparator_ranges. -/
def comparator_range (c : Comparator) : VRange :=
  match c.op with
  | .Exact => exact_range c.major c.minor c.patch
  | .Greater => greater_range c.major c.minor c.patch
  | .GreaterEq => greater_or_equal_range c.major c.minor c.patch
  | .Less => less_range c.major c.minor c.patch
  | .LessEq => less_or_equal_range c.major c.minor c.patch
  | .Tilde => tilde_range c.major c.minor c.patch
  | .Caret => caret_range c.major c.minor c.patch
  | .Wildcard => wildcard_range c.major c.minor c.patch

/-- Whether the comparator contributes to the intersection's lower bound
(the Exact/Tilde/Caret/Wildcard and Greater/GreaterEq arms of the second
match in Version::comparator_ranges update the start). -/
def updates_start (op : Op) : Bool :=
  match op with
  | .Exact | .Tilde | .Caret | .Wildcard | .Greater | .GreaterEq => true
  | .Less | .LessEq => false

/-- Whether the comparator contributes to the intersection's upper bound
(the Exact/Tilde/Caret/Wildcard and Less/LessEq arms update the end). -/
def updates_stop (op : Op) : Bool :=
  match op with
  | .Exact | .Tilde | .Caret | .Wildcard | .Less | .LessEq => true
  | .Greater | .GreaterEq => false

/-- The running-start update in Version::comparator_ranges: replace the
accumulator when the comparator's start is strictly greater. -/
def vmax_step (acc v : Semver.Version) : Semver.Version :=
  if acc.vlt v then v else acc

/-- The running-end update in Version::comparator_ranges: replace the
accumulator when the comparator's end is strictly smaller. -/
def vmin_step (acc v : Semver.Version) : Semver.Version :=
  if v.vlt acc then v else acc

/-- One loop iteration of Version::comparator_ranges: raise the running
start, lower the running end, according to the comparator's operator. -/
def comparator_ranges_step (acc : Semver.Version × Semver.Version) (c : Comparator) :
    Semver.Version × Semver.Version :=
  let range := comparator_range c
  (if updates_start c.op then vmax_step acc.1 range.start else acc.1,
    if updates_stop c.op then vmin_step acc.2 range.stop else acc.2)

/-- Models Version::comparator_ranges: fold all comparators over the
initial interval [0.0.0, u64::MAX triple), intersecting lower and upper
bounds (the log::error! side effect is modelled by
comparator_ranges_logs below). -/
def comparator_ranges (v : Version) : VRange :=
  let acc := v.req.comparators.foldl comparator_ranges_step
    (⟨0, 0, 0⟩, ⟨U64MAX, U64MAX, U64MAX⟩)
  ⟨acc.1, acc.2⟩

/-- Models the log::error! diagnostic at the end of
Version::comparator_ranges: it fires exactly when end < start (strictly). -/
def comparator_ranges_logs (v : Version) : Bool :=
  (comparator_ranges v).stop.vlt (comparator_ranges v).start

/-- Models the PartialOrd impl for Version:
range_compare of the two comparator intersections. -/
def pcmp (a b : Version) : Option Ordering :=
  range_compare (comparator_ranges a) (comparator_ranges b)

/-- The body of Version::change_type on the two first comparators
(only major/minor/patch are read; the operator is ignored). -/
def change_type_first (c other : Comparator) : Change :=
  if c.major ≠ other.major then .Major
  else
    match c.minor, other.minor with
    | some self_minor, some other_minor =>
      if self_minor ≠ other_minor then
        if 0 < c.major then .Minor else .Major
      else
        match c.patch, other.patch with
        | some self_patch, some other_patch =>
          if self_patch ≠ other_patch then
            if 0 < c.major then .Patch
            else if 0 < self_minor then .Minor
            else .Major
          else .None
        | _, _ => .Unknown
    | _, _ => .Unknown

/-- Models Version::change_type: reads the first comparator of each
requirement; the source's expect panics when a comparator list is empty,
modelled as the error value carrying the expect message. -/
def change_type (a b : Version) : Except String Change :=
  match a.req.comparators, b.req.comparators with
  | c :: _, other :: _ => .ok (change_type_first c other)
  | _, _ => .error "Index should be valid"

end Version

/-- The starts of the lower-bound-contributing comparators
(Greater/GreaterEq/Exact/Tilde/Caret/Wildcard) of a requirement. -/
def lower_starts (cs : List Comparator) : List Semver.Version :=
  (cs.filter (fun c => Version.updates_start c.op)).map
    (fun c => (Version.comparator_range c).start)

/-- The ends of the upper-bound-contributing comparators
(Less/LessEq/Exact/Tilde/Caret/Wildcard) of a requirement. -/
def upper_ends (cs : List Comparator) : List Semver.Version :=
  (cs.filter (fun c => Version.updates_stop c.op)).map
    (fun c => (Version.comparator_range c).stop)

/-- All numeric components of the comparator stay strictly below
u64::MAX, so the bump helpers cannot overflow past the open upper bound
(in Rust they panic at exactly u64::MAX). -/
def comp_bounded (c : Comparator) : Bool :=
  (c.major + 1 ≤ U64MAX) &&
    (match c.minor with
    | some m => m + 1 ≤ U64MAX
    | none => true) &&
    (match c.patch with
    | some p => p + 1 ≤ U64MAX
    | none => true)

/-! Requirement-string parsing.  The parser itself is the external semver
crate, not part of src/, so it is modelled from the spec. -/

/-- Drops leading and trailing whitespace from a character list. -/
def trim_spaces (cs : List Char) : List Char :=
  ((cs.dropWhile Char.isWhitespace).reverse.dropWhile Char.isWhitespace).reverse

/-- Splits a character list on commas (comparator separators). -/
def split_commas : List Char → List (List Char)
  | [] => [[]]
  | ',' :: t => [] :: split_commas t
  | c :: t =>
    match split_commas t with
    | h :: r => (c :: h) :: r
    | [] => [[c]]

/-- Numeric value of a digit string (most significant first). -/
def digits_to_nat (ds : List Char) : Nat :=
  ds.foldl (fun n c => 10 * n + (c.toNat - 48)) 0

/-- Modelled from the spec: parse one numeric version component (major,
minor or patch), as the semver crate does — at least one digit, value at
most u64::MAX; returns the value and the unconsumed input. -/
def parse_component (cs : List Char) : Option (Nat × List Char) :=
  let ds := cs.takeWhile Char.isDigit
  if ds = [] then none
  else if digits_to_nat ds ≤ U64MAX then
    some (digits_to_nat ds, cs.dropWhile Char.isDigit)
  else none

/-- Modelled from the spec: recognise an explicit comparator operator
prefix; anything else (including unsupported operators such as "!=")
leaves the input unconsumed with no operator. -/
def parse_op (cs : List Char) : Option Op × List Char :=
  match cs with
  | '>' :: '=' :: t => (some .GreaterEq, t)
  | '<' :: '=' :: t => (some .LessEq, t)
  | '>' :: t => (some .Greater, t)
  | '<' :: t => (some .Less, t)
  | '=' :: t => (some .Exact, t)
  | '~' :: t => (some .Tilde, t)
  | '^' :: t => (some .Caret, t)
  | _ => (none, cs)

/-- Characters legal inside a prerelease identifier. -/
def is_pre_char (c : Char) : Bool :=
  c.isAlphanum || c = '.' || c = '-'

/-- Modelled from the spec: parse one comparator of a requirement string
(already trimmed): optional operator, whitespace, major with optional
minor/patch, a trailing wildcard component converting the comparator to
Wildcard (only without an explicit operator), and an optional
prerelease after a full triple.  A missing operator defaults to Caret,
the operator Cargo implies for bare versions.  Unsupported operator
characters make the whole comparator unparseable. -/
def parse_comparator (piece : List Char) : Option Comparator :=
  let (opGiven, cs) := parse_op piece
  let cs := cs.dropWhile Char.isWhitespace
  match parse_component cs with
  | none => none
  | some (major, rest) =>
    match rest with
    | [] => some ⟨opGiven.getD .Caret, major, none, none, ""⟩
    | '.' :: rest1 =>
      match rest1 with
      | '*' :: rest2 =>
        if opGiven = none ∧ (rest2 = [] ∨ rest2 = ['.', '*']) then
          some ⟨.Wildcard, major, none, none, ""⟩
        else none
      | _ =>
        match parse_component rest1 with
        | none => none
        | some (minor, rest2) =>
          match rest2 with
          | [] => some ⟨opGiven.getD .Caret, major, some minor, none, ""⟩
          | '.' :: rest3 =>
            match rest3 with
            | '*' :: rest4 =>
              if opGiven = none ∧ rest4 = [] then
                some ⟨.Wildcard, major, some minor, none, ""⟩
              else none
            | _ =>
              match parse_component rest3 with
              | none => none
              | some (patch, rest4) =>
                match rest4 with
                | [] => some ⟨opGiven.getD .Caret, major, some minor, some patch, ""⟩
                | '-' :: pre =>
                  if pre ≠ [] ∧ pre.all is_pre_char then
                    some ⟨opGiven.getD .Caret, major, some minor, some patch, String.mk pre⟩
                  else none
                | _ => none
          | _ => none
    | _ => none

/-- Modelled from the spec: semver::VersionReq::parse.  A bare "*" is
the star requirement with zero comparators (the source's Display impl
for Version renders that empty case back as "*"); otherwise the string
is a comma-separated non-empty sequence of comparators, each parsed by
parse_comparator; any failing piece fails the whole parse. -/
def parse_version_req (s : String) : Option (List Comparator) :=
  let cs := trim_spaces s.data
  if cs = [] then none
  else if cs = ['*'] then some []
  else (split_commas cs).mapM (fun piece => parse_comparator (trim_spaces piece))

namespace Version

/-- Models Version::new: parse the requirement string; every parse
failure is surfaced through the same map_err as a plain String (the
error_if_comparator_operator_not_supported call is commented out in the
source, so no operator-specific error variant exists; the varying
semver messages are modelled as one generic message). -/
def new (version_number : String) : Except String Version :=
  match parse_version_req version_number with
  | some cs => .ok ⟨⟨cs⟩⟩
  | none => .error "unexpected character in version requirement"

/-- Operator glyph used by the semver crate Display for comparators. -/
def op_display (op : Op) : String :=
  match op with
  | .Exact => "="
  | .Greater => ">"
  | .GreaterEq => ">="
  | .Less => "<"
  | .LessEq => "<="
  | .Tilde => "~"
  | .Caret => "^"
  | .Wildcard => ""

/-- Modelled from the spec: the semver crate Display for a Comparator,
used by fmt_comparator_version for every non-caret operator. -/
def comparator_display (c : Comparator) : String :=
  match c.op with
  | .Wildcard =>
    match c.minor with
    | some m => Nat.repr c.major ++ "." ++ Nat.repr m ++ ".*"
    | none => Nat.repr c.major ++ ".*"
  | _ =>
    op_display c.op ++ Nat.repr c.major ++
      (match c.minor with
      | none => ""
      | some m =>
        "." ++ Nat.repr m ++
          (match c.patch with
          | none => ""
          | some p =>
            "." ++ Nat.repr p ++ (if c.pre = "" then "" else "-" ++ c.pre)))

/-- Models Version::fmt_comparator_version: caret comparators print
their digits without the caret (prerelease only after a full triple);
every other comparator uses the semver crate Display. -/
def fmt_comparator_version (c : Comparator) : String :=
  match c.op with
  | .Caret =>
    Nat.repr c.major ++
      (match c.minor with
      | none => ""
      | some m =>
        "." ++ Nat.repr m ++
          (match c.patch with
          | none => ""
          | some p =>
            "." ++ Nat.repr p ++ (if c.pre = "" then "" else "-" ++ c.pre)))
  | _ => comparator_display c

/-- Models fmt::Display for Version: an empty comparator list renders as
"*"; otherwise the comparators joined with ", ". -/
def display (v : Version) : String :=
  match v.req.comparators with
  | [] => "*"
  | first :: rest =>
    rest.foldl (fun acc c => acc ++ ", " ++ fmt_comparator_version c)
      (fmt_comparator_version first)

end Version

/-! Dependency-diff engine from src/src/domain/cargo_toml/mod.rs.
BTreeMap tables are modelled as association lists in ascending key
order with distinct keys; BTreeSet of keys as a list of keys. -/

/-- Models DetailedCargoDependency. -/
structure DetailedCargoDependency where
  version : String
  package : Option String
deriving DecidableEq, Repr

/-- Models GitCargoDependency. -/
structure GitCargoDependency where
  git : String
  package : Option String
deriving DecidableEq, Repr

/-- Models CargoDependencyValue. -/
inductive CargoDependencyValue where
  | Simple (version : String)
  | Detailed (d : DetailedCargoDependency)
  | Git (g : GitCargoDependency)
deriving DecidableEq, Repr

/-- Models the File struct holding the four optional dependency tables. -/
structure File where
  dependencies : Option (List (String × CargoDependencyValue))
  build_dependencies : Option (List (String × CargoDependencyValue))
  dev_dependencies : Option (List (String × CargoDependencyValue))
  workspace_dependencies : Option (List (String × CargoDependencyValue))
deriving DecidableEq, Repr

namespace File

/-- Number of log::warn! diagnostics File::get_version emits for a
value: exactly one for a git-flavored dependency, zero otherwise. -/
def git_warn (value : CargoDependencyValue) : Nat :=
  match value with
  | .Git _ => 1
  | _ => 0

/-- Total git diagnostics over a dependency table. -/
def git_count (l : List (String × CargoDependencyValue)) : Nat :=
  (l.map (fun p => git_warn p.2)).sum

/-- Git diagnostic contributed by the entry of previous stored under a
key (zero when the key is absent). -/
def lookup_git_warn (previous : List (String × CargoDependencyValue)) (k : String) : Nat :=
  match previous.lookup k with
  | some v => git_warn v
  | none => 0

/-- Models File::get_version: Simple and Detailed values parse their
version string (errors contextualised per the source); a git value logs
a warning (counted by git_warn) and substitutes the sentinel version
"0". -/
def get_version (value : CargoDependencyValue) : Except String Version :=
  match value with
  | .Simple version =>
    (Version.new version).mapError (fun error =>
      "Unexpected semver " ++ version ++
        " found while computing dependency changes: " ++ error)
  | .Detailed d =>
    (Version.new d.version).mapError (fun _ =>
      "Unexpected semver version `" ++ d.version ++
        "` found while computing dependency changes")
  | .Git _ =>
    match Version.new "0" with
    | .ok v => .ok v
    | .error _ => .error "Version 0 should be valid"

/-- The bump record written by get_changes_from_current_dependencies
(writeln! appends the trailing newline). -/
def bump_line (change_type package_name : String) (label : Option String)
    (previous current : String) : String :=
  match label with
  | some label_value =>
    change_type ++ " bump " ++ package_name ++ " " ++ label_value ++ " from " ++
      previous ++ " to " ++ current ++ "\n"
  | none =>
    change_type ++ " bump " ++ package_name ++ " from " ++ previous ++ " to " ++
      current ++ "\n"

/-- The drop record (writeln! appends the trailing newline). -/
def drop_line (change_type package_name : String) (label : Option String)
    (previous current : String) : String :=
  match label with
  | some label_value =>
    change_type ++ " drop " ++ package_name ++ " " ++ label_value ++ " from " ++
      previous ++ " to " ++ current ++ "\n"
  | none =>
    change_type ++ " drop " ++ package_name ++ " from " ++ previous ++ " to " ++
      current ++ "\n"

/-- The change record for incomparable ranges.  In the source the
labeled format string itself ends in a newline escape before writeln!
adds the line terminator, so the labeled shape ends in two newlines; the
unlabeled shape ends in one. -/
def change_line (change_type package_name : String) (label : Option String)
    (previous current : String) : String :=
  match label with
  | some label_value =>
    change_type ++ " change " ++ package_name ++ " " ++ label_value ++ " from " ++
      previous ++ " to " ++ current ++ "\n" ++ "\n"
  | none =>
    change_type ++ " change " ++ package_name ++ " from " ++ previous ++ " to " ++
      current ++ "\n"

/-- The add record (writeln! appends the trailing newline). -/
def add_line (package_name : String) (label : Option String) (current : String) : String :=
  match label with
  | some label_value =>
    "✨ add " ++ package_name ++ " " ++ label_value ++ " " ++ current ++ "\n"
  | none => "✨ add " ++ package_name ++ " " ++ current ++ "\n"

/-- The remove record (writeln! appends the trailing newline). -/
def remove_line (package_name : String) (label : Option String) (version : String) : String :=
  match label with
  | some label_value =>
    "🗑️ remove " ++ package_name ++ " " ++ label_value ++ " " ++ version ++ "\n"
  | none => "🗑️ remove " ++ package_name ++ " " ++ version ++ "\n"

/-- The package_name binding inside
File::get_changes_from_current_dependencies: the display name is the
package alias when one is declared, else the manifest key. -/
def package_display_name (name : String) (value : CargoDependencyValue) : String :=
  match value with
  | .Simple _ => name
  | .Git g => g.package.getD name
  | .Detailed d => d.package.getD name

/-- The record written for a matched dependency, by comparison outcome:
Greater bumps, Equal emits nothing, Less drops, incomparable changes. -/
def comparison_line (cmp : Option Ordering) (ct package_name : String)
    (label : Option String) (previous current : String) : String :=
  match cmp with
  | some .gt => bump_line ct package_name label previous current
  | some .eq => ""
  | some .lt => drop_line ct package_name label previous current
  | none => change_line ct package_name label previous current

/-- Models File::get_changes_from_current_dependencies: walk the current
table in order; resolve the display name from the package alias; matched
keys are erased from previous_keys and compared (Greater bumps, Less
drops, Equal emits nothing, incomparable changes); unmatched keys emit
add records.  The extra Nat accumulates git log::warn! diagnostics. -/
def get_changes_from_current_dependencies
    (current previous : List (String × CargoDependencyValue)) (label : Option String)
    (previous_keys : List String) (result : String) (warns : Nat) :
    Except String (List String × String × Nat) :=
  match current with
  | [] => .ok (previous_keys, result, warns)
  | (name, current_value) :: rest =>
    match get_version current_value with
    | .error e => .error e
    | .ok current_version =>
      let warns := warns + git_warn current_value
      let package_name := package_display_name name current_value
      match previous.lookup name with
      | some previous_value =>
        match get_version previous_value with
        | .error e => .error e
        | .ok previous_version =>
          let warns := warns + git_warn previous_value
          let previous_keys := previous_keys.erase name
          match Version.change_type current_version previous_version with
          | .error e => .error e
          | .ok ct =>
            let line := comparison_line (Version.pcmp current_version previous_version)
              ct.display package_name label previous_version.display
              current_version.display
            get_changes_from_current_dependencies rest previous label previous_keys
              (result ++ line) warns
      | none =>
        get_changes_from_current_dependencies rest previous label previous_keys
          (result ++ add_line package_name label current_version.display) warns

/-- Models the removed-dependencies loop at the end of
File::get_dependency_changes_versus_previous; the source's unwrap and
expect panics are modelled as error values, and the git arm emits one
more warning. -/
def removed_lines (previous : List (String × CargoDependencyValue))
    (previous_keys : List String) (label : Option String) (result : String)
    (warns : Nat) : Except String (String × Nat) :=
  match previous_keys with
  | [] => .ok (result, warns)
  | name :: rest =>
    match previous.lookup name with
    | none => .error "Previous dependencies should include this dependency."
    | some value =>
      match value with
      | .Simple version =>
        match Version.new version with
        | .error e => .error e
        | .ok v => removed_lines previous rest label (result ++ remove_line name label v.display) warns
      | .Detailed d =>
        match Version.new d.version with
        | .error _ => .error "Previous dependencies should include this dependency."
        | .ok v =>
          removed_lines previous rest label
            (result ++ remove_line (d.package.getD name) label v.display) warns
      | .Git g =>
        match Version.new "0" with
        | .error _ => .error "`0` should be a valid semver version"
        | .ok v =>
          removed_lines previous rest label
            (result ++ remove_line (g.package.getD name) label v.display) (warns + 1)

/-- Models File::get_dependency_changes_versus_previous: seed
previous_keys with every previous key, process the current table, then
emit remove records for the keys left over. -/
def get_dependency_changes_versus_previous
    (current previous : List (String × CargoDependencyValue)) (label : Option String)
    (result : String) (warns : Nat) : Except String (String × Nat) :=
  match get_changes_from_current_dependencies current previous label
      (previous.map Prod.fst) result warns with
  | .error e => .error e
  | .ok (previous_keys, result, warns) =>
    removed_lines previous previous_keys label result warns

/-- Models File::get_optional_dependency_changes_versus_previous: a
missing table diffs as the empty table; two missing tables contribute
nothing. -/
def get_optional_dependency_changes_versus_previous
    (current previous : Option (List (String × CargoDependencyValue)))
    (label : Option String) (result : String) (warns : Nat) :
    Except String (String × Nat) :=
  match current, previous with
  | some c, some p => get_dependency_changes_versus_previous c p label result warns
  | some c, none => get_dependency_changes_versus_previous c [] label result warns
  | none, some p => get_dependency_changes_versus_previous [] p label result warns
  | none, none => .ok (result, warns)

/-- Models File::print_changes_versus_previous_version: concatenate the
four tables in the fixed order Normal, Dev, Build, Workspace (with the
source's labels), and fall back to the fixed sentinel line when nothing
was written. -/
def print_changes_versus_previous_version (self previous : File) :
    Except String (String × Nat) :=
  match get_optional_dependency_changes_versus_previous self.dependencies
      previous.dependencies none "" 0 with
  | .error e => .error e
  | .ok (result, warns) =>
    match get_optional_dependency_changes_versus_previous self.dev_dependencies
        previous.dev_dependencies (some "(🖥️ dev-dependencies)") result warns with
    | .error e => .error e
    | .ok (result, warns) =>
      match get_optional_dependency_changes_versus_previous self.build_dependencies
          previous.build_dependencies (some "(🧱 build-dependencies)") result warns with
      | .error e => .error e
      | .ok (result, warns) =>
        match get_optional_dependency_changes_versus_previous self.workspace_dependencies
            previous.workspace_dependencies (some "(🗄️ workspace-dependencies)") result warns with
        | .error e => .error e
        | .ok (result, warns) =>
          if result = "" then .ok ("🧹 No changes detected.\n", warns)
          else .ok (result, warns)

end File

/-- Whether a dependency value's version string parses to a requirement
with at least one comparator (git values substitute the sentinel "0" and
always qualify); this is the well-formedness the diff engine needs to
avoid parse errors and the first-comparator panic. -/
def parses_nonempty (v : CargoDependencyValue) : Bool :=
  match v with
  | .Simple s =>
    match parse_version_req s with
    | some (_ :: _) => true
    | _ => false
  | .Detailed d =>
    match parse_version_req d.version with
    | some (_ :: _) => true
    | _ => false
  | .Git _ => true

/-- Well-formedness of one dependency table: distinct keys (a BTreeMap
invariant) and parseable, non-empty requirements. -/
def table_wf (l : List (String × CargoDependencyValue)) : Prop :=
  (l.map Prod.fst).Nodup ∧ ∀ p ∈ l, parses_nonempty p.2 = true

/-- Well-formedness of an optional table. -/
def opt_table_wf (o : Option (List (String × CargoDependencyValue))) : Prop :=
  match o with
  | some l => table_wf l
  | none => True

/-- Well-formedness of all four tables of a manifest. -/
def File.wf (f : File) : Prop :=
  opt_table_wf f.dependencies ∧ opt_table_wf f.build_dependencies ∧
    opt_table_wf f.dev_dependencies ∧ opt_table_wf f.workspace_dependencies

/-- Number of newline characters in a string. -/
def newline_count (s : String) : Nat :=
  s.data.count '\n'

/-! Theorems. -/

theorem vle_refl (a : Semver.Version) : a.vle a := Or.inr rfl

theorem vle_of_not_vlt {a b : Semver.Version} (h : ¬ a.vlt b) : b.vle a := by
  obtain ⟨a1, a2, a3⟩ := a
  obtain ⟨b1, b2, b3⟩ := b
  simp only [Semver.Version.vlt, Semver.Version.vle, Semver.Version.mk.injEq] at *
  omega

theorem vle_of_vlt {a b : Semver.Version} (h : a.vlt b) : a.vle b := Or.inl h

theorem vle_trans {a b c : Semver.Version} (h1 : a.vle b) (h2 : b.vle c) : a.vle c := by
  obtain ⟨a1, a2, a3⟩ := a
  obtain ⟨b1, b2, b3⟩ := b
  obtain ⟨c1, c2, c3⟩ := c
  simp only [Semver.Version.vlt, Semver.Version.vle, Semver.Version.mk.injEq] at *
  omega

theorem vle_antisymm {a b : Semver.Version} (h1 : a.vle b) (h2 : b.vle a) : a = b := by
  obtain ⟨a1, a2, a3⟩ := a
  obtain ⟨b1, b2, b3⟩ := b
  simp only [Semver.Version.vlt, Semver.Version.vle, Semver.Version.mk.injEq] at *
  omega

theorem zero_vle (a : Semver.Version) : (⟨0, 0, 0⟩ : Semver.Version).vle a := by
  obtain ⟨a1, a2, a3⟩ := a
  simp only [Semver.Version.vlt, Semver.Version.vle, Semver.Version.mk.injEq]
  omega

theorem range_compare_self (r : VRange) : Version.range_compare r r = some .eq := by
  simp [Version.range_compare]

theorem rc_eq_iff (a b : VRange) :
    Version.range_compare a b = some .eq ↔ a = b := by
  unfold Version.range_compare
  split_ifs <;> simp_all

theorem rc_lt_iff (a b : VRange) :
    Version.range_compare a b = some .lt ↔
      (¬ a = b ∧ (a.stop.vle b.start ∨ (a.start.vlt b.start ∧ a.stop = b.stop) ∨
        (a.start = b.start ∧ a.stop.vlt b.stop))) := by
  unfold Version.range_compare
  split_ifs <;> simp_all

set_option maxHeartbeats 1000000 in
theorem rc_gt_iff (a b : VRange) :
    Version.range_compare a b = some .gt ↔
      (¬ a = b ∧
        ¬ (a.stop.vle b.start ∨ (a.start.vlt b.start ∧ a.stop = b.stop) ∨
          (a.start = b.start ∧ a.stop.vlt b.stop)) ∧
        (b.stop.vle a.start ∨ (b.start.vlt a.start ∧ a.stop = b.stop) ∨
          (a.start = b.start ∧ b.stop.vlt a.stop))) := by
  unfold Version.range_compare
  split_ifs with h1 h2 h3 <;> simp_all

set_option maxHeartbeats 1600000 in
theorem range_compare_antisymm_aux (a b : VRange)
    (ha : a.start.vlt a.stop) (hb : b.start.vlt b.stop) :
    (Version.range_compare a b = some .lt ↔ Version.range_compare b a = some .gt) ∧
    (Version.range_compare a b = some .eq ↔ Version.range_compare b a = some .eq) := by
  obtain ⟨⟨as1, as2, as3⟩, ⟨ae1, ae2, ae3⟩⟩ := a
  obtain ⟨⟨bs1, bs2, bs3⟩, ⟨be1, be2, be3⟩⟩ := b
  rw [rc_lt_iff, rc_gt_iff, rc_eq_iff, rc_eq_iff]
  simp only [Semver.Version.vlt, Semver.Version.vle, VRange.mk.injEq,
    Semver.Version.mk.injEq] at *
  refine ⟨⟨fun h => ?_, fun h => ?_⟩, ⟨fun h => ?_, fun h => ?_⟩⟩ <;> omega

/-- C2: range comparison is antisymmetric — compare(a,b) = Less iff
compare(b,a) = Greater, and Equal iff Equal — provided both requirements
intersect to a valid interval (start strictly below end).  For invalid
(empty) intervals the claim fails, see the counterexample. -/
theorem c2_range_compare_antisymm (a b : Version)
    (ha : (Version.comparator_ranges a).start.vlt (Version.comparator_ranges a).stop)
    (hb : (Version.comparator_ranges b).start.vlt (Version.comparator_ranges b).stop) :
    (Version.pcmp a b = some .lt ↔ Version.pcmp b a = some .gt) ∧
    (Version.pcmp a b = some .eq ↔ Version.pcmp b a = some .eq) := by
  unfold Version.pcmp
  exact range_compare_antisymm_aux _ _ ha hb

/-- C2 witness: antisymmetry instantiated at the caret requirements
written "1" and "2". -/
theorem c2_range_compare_antisymm_witness :
    (Version.pcmp ⟨⟨[⟨.Caret, 1, none, none, ""⟩]⟩⟩ ⟨⟨[⟨.Caret, 2, none, none, ""⟩]⟩⟩ =
        some .lt ↔
      Version.pcmp ⟨⟨[⟨.Caret, 2, none, none, ""⟩]⟩⟩ ⟨⟨[⟨.Caret, 1, none, none, ""⟩]⟩⟩ =
        some .gt) ∧
    (Version.pcmp ⟨⟨[⟨.Caret, 1, none, none, ""⟩]⟩⟩ ⟨⟨[⟨.Caret, 2, none, none, ""⟩]⟩⟩ =
        some .eq ↔
      Version.pcmp ⟨⟨[⟨.Caret, 2, none, none, ""⟩]⟩⟩ ⟨⟨[⟨.Caret, 1, none, none, ""⟩]⟩⟩ =
        some .eq) :=
  c2_range_compare_antisymm _ _ (by decide) (by decide)

/-- C2 counterexample: the requirements ">=5, <1" and ">=3, <2" both
parse, both intersect to empty intervals, and each compares Less against
the other — so compare(a,b) = Less does not imply compare(b,a) =
Greater as the claim states for every pair of requirements. -/
theorem c2_counterexample :
    Version.new ">=5, <1" =
      .ok ⟨⟨[⟨.GreaterEq, 5, none, none, ""⟩, ⟨.Less, 1, none, none, ""⟩]⟩⟩ ∧
    Version.new ">=3, <2" =
      .ok ⟨⟨[⟨.GreaterEq, 3, none, none, ""⟩, ⟨.Less, 2, none, none, ""⟩]⟩⟩ ∧
    Version.pcmp ⟨⟨[⟨.GreaterEq, 5, none, none, ""⟩, ⟨.Less, 1, none, none, ""⟩]⟩⟩
        ⟨⟨[⟨.GreaterEq, 3, none, none, ""⟩, ⟨.Less, 2, none, none, ""⟩]⟩⟩ = some .lt ∧
    ¬ Version.pcmp ⟨⟨[⟨.GreaterEq, 3, none, none, ""⟩, ⟨.Less, 2, none, none, ""⟩]⟩⟩
        ⟨⟨[⟨.GreaterEq, 5, none, none, ""⟩, ⟨.Less, 1, none, none, ""⟩]⟩⟩ = some .gt :=
  ⟨by rfl, by rfl, by decide, by decide⟩

/-- C3 (amended): an invalid intersection is non-fatal — the interval is
still returned, the log::error! diagnostic fires exactly when end <
start (strictly, so the empty case end = start is not logged), and range
comparison does not degrade to Incomparable: such a requirement compares
Equal against itself. -/
theorem c3_invalid_interval_nonfatal (a : Version)
    (h : (Version.comparator_ranges a).stop.vle (Version.comparator_ranges a).start) :
    Version.pcmp a a = some .eq ∧
    (Version.comparator_ranges_logs a = true ↔
      (Version.comparator_ranges a).stop.vlt (Version.comparator_ranges a).start) := by
  refine ⟨?_, ?_⟩
  · unfold Version.pcmp
    exact range_compare_self _
  · simp [Version.comparator_ranges_logs]

/-- C3 witness: the empty requirement ">=5, <1" has end ≤ start, is
logged, and still compares Equal to itself. -/
theorem c3_invalid_interval_nonfatal_witness :
    Version.pcmp ⟨⟨[⟨.GreaterEq, 5, none, none, ""⟩, ⟨.Less, 1, none, none, ""⟩]⟩⟩
        ⟨⟨[⟨.GreaterEq, 5, none, none, ""⟩, ⟨.Less, 1, none, none, ""⟩]⟩⟩ = some .eq ∧
    (Version.comparator_ranges_logs
        ⟨⟨[⟨.GreaterEq, 5, none, none, ""⟩, ⟨.Less, 1, none, none, ""⟩]⟩⟩ = true ↔
      (Version.comparator_ranges
          ⟨⟨[⟨.GreaterEq, 5, none, none, ""⟩, ⟨.Less, 1, none, none, ""⟩]⟩⟩).stop.vlt
        (Version.comparator_ranges
          ⟨⟨[⟨.GreaterEq, 5, none, none, ""⟩, ⟨.Less, 1, none, none, ""⟩]⟩⟩).start) :=
  c3_invalid_interval_nonfatal _ (by decide)

/-- C3 counterexample: ">=1, <1" intersects to end = start but the
diagnostic does not fire (the source logs only on end < start), and the
fully-precise empty requirement ">=5.0.0, <1.0.0" compares Equal — not
Incomparable — against itself with magnitude None — not Unknown. -/
theorem c3_counterexample :
    Version.new ">=1, <1" =
      .ok ⟨⟨[⟨.GreaterEq, 1, none, none, ""⟩, ⟨.Less, 1, none, none, ""⟩]⟩⟩ ∧
    (Version.comparator_ranges
        ⟨⟨[⟨.GreaterEq, 1, none, none, ""⟩, ⟨.Less, 1, none, none, ""⟩]⟩⟩).stop.vle
      (Version.comparator_ranges
        ⟨⟨[⟨.GreaterEq, 1, none, none, ""⟩, ⟨.Less, 1, none, none, ""⟩]⟩⟩).start ∧
    Version.comparator_ranges_logs
      ⟨⟨[⟨.GreaterEq, 1, none, none, ""⟩, ⟨.Less, 1, none, none, ""⟩]⟩⟩ = false ∧
    Version.new ">=5.0.0, <1.0.0" =
      .ok ⟨⟨[⟨.GreaterEq, 5, some 0, some 0, ""⟩, ⟨.Less, 1, some 0, some 0, ""⟩]⟩⟩ ∧
    (Version.comparator_ranges
        ⟨⟨[⟨.GreaterEq, 5, some 0, some 0, ""⟩, ⟨.Less, 1, some 0, some 0, ""⟩]⟩⟩).stop.vlt
      (Version.comparator_ranges
        ⟨⟨[⟨.GreaterEq, 5, some 0, some 0, ""⟩, ⟨.Less, 1, some 0, some 0, ""⟩]⟩⟩).start ∧
    Version.pcmp ⟨⟨[⟨.GreaterEq, 5, some 0, some 0, ""⟩, ⟨.Less, 1, some 0, some 0, ""⟩]⟩⟩
      ⟨⟨[⟨.GreaterEq, 5, some 0, some 0, ""⟩, ⟨.Less, 1, some 0, some 0, ""⟩]⟩⟩ = some .eq ∧
    Version.change_type
      ⟨⟨[⟨.GreaterEq, 5, some 0, some 0, ""⟩, ⟨.Less, 1, some 0, some 0, ""⟩]⟩⟩
      ⟨⟨[⟨.GreaterEq, 5, some 0, some 0, ""⟩, ⟨.Less, 1, some 0, some 0, ""⟩]⟩⟩ =
      .ok Change.None :=
  ⟨by rfl, by decide, by decide, by rfl, by decide, by decide, by rfl⟩

/-- C4 counterexample: the bare wildcard "*" parses successfully into a
requirement with zero comparators — construction does not fail, so the
non-empty invariant does not hold for every constructed requirement. -/
theorem c4_counterexample :
    Version.new "*" = .ok ⟨⟨[]⟩⟩ ∧ (⟨⟨[]⟩⟩ : Version).req.comparators = [] :=
  ⟨by rfl, rfl⟩

/-- C4 (amended): Version::new performs no comparator-count check (the
error_if_comparator_operator_not_supported call is commented out), so
the bare wildcard "*" constructs a requirement with zero comparators,
which the Display impl renders back as "*". -/
theorem c4_star_constructs_empty :
    Version.new "*" = .ok ⟨⟨[]⟩⟩ ∧ Version.display ⟨⟨[]⟩⟩ = "*" :=
  ⟨by rfl, rfl⟩

/-- C5: caret intervals — full-precision ^I.J.K starts at I.J.K and ends
at the major bump when I > 0, the minor bump when I = 0 < J, and the
patch bump when I = J = 0; a bare ^I covers [I.0.0, (I+1).0.0). -/
theorem c5_caret_range (I J K : Nat) :
    (0 < I → Version.caret_range I (some J) (some K) = ⟨⟨I, J, K⟩, ⟨I + 1, 0, 0⟩⟩) ∧
    (0 < J → Version.caret_range 0 (some J) (some K) = ⟨⟨0, J, K⟩, ⟨0, J + 1, 0⟩⟩) ∧
    (Version.caret_range 0 (some 0) (some K) = ⟨⟨0, 0, K⟩, ⟨0, 0, K + 1⟩⟩) ∧
    (Version.caret_range I none none = ⟨⟨I, 0, 0⟩, ⟨I + 1, 0, 0⟩⟩) := by
  refine ⟨fun hI => ?_, fun hJ => ?_, ?_, ?_⟩
  · match I, hI with
    | i + 1, _ =>
      simp [Version.caret_range, Version.version_with_bumped_major]
  · match J, hJ with
    | j + 1, _ =>
      simp [Version.caret_range, Version.version_with_bumped_minor]
  · simp [Version.caret_range, Version.version_with_bumped_patch]
  · match I with
    | 0 => simp [Version.caret_range]
    | i + 1 => simp [Version.caret_range, Version.version_with_bumped_major]

/-- C5 witness: the caret rules instantiated at ^2.3.4. -/
theorem c5_caret_range_witness :
    Version.caret_range 2 (some 3) (some 4) = ⟨⟨2, 3, 4⟩, ⟨3, 0, 0⟩⟩ :=
  (c5_caret_range 2 3 4).1 (by decide)

/-- C8 counterexample: a requirement using the unsupported operator "!="
fails with exactly the same generic parse error as a plainly malformed
requirement — there is no distinguishable unsupported-operator error
(Version::new pipes every semver parse failure through one map_err and
the dedicated operator check is commented out in the source). -/
theorem c8_counterexample :
    Version.new "!=1.0.0" = .error "unexpected character in version requirement" ∧
    Version.new "1..3" = .error "unexpected character in version requirement" :=
  ⟨by rfl, by rfl⟩

/-- C8 (amended): every requirement string the parser rejects — which
includes every string with an operator outside the eight supported kinds
— makes Version::new return the one generic parse error; there is no
panic and no silent approximation for such strings, but also no
operator-specific error. -/
theorem c8_unsupported_operator_generic_error (s : String)
    (h : parse_version_req s = none) :
    Version.new s = .error "unexpected character in version requirement" := by
  unfold Version.new
  rw [h]

/-- C8 witness: the unsupported-operator string ">>1.0.0" fails with the
generic parse error. -/
theorem c8_unsupported_operator_generic_error_witness :
    Version.new ">>1.0.0" = .error "unexpected character in version requirement" :=
  c8_unsupported_operator_generic_error ">>1.0.0" (by rfl)

/-- C6: the change classifier on the first comparators — Major when
majors differ; for equal majors and both minors present but different,
Minor when major > 0 and Major when major = 0; for equal majors and
minors and both patches present but different, Patch when major > 0,
Minor when major = 0 < minor, Major when major = minor = 0; None when
major, minor and patch are all present and equal; and Unknown on the
precision mismatch "1.2.3" vs "1.2" in either order. -/
theorem c6_change_type_rules :
    (∀ c o : Comparator, c.major ≠ o.major → Version.change_type_first c o = .Major) ∧
    (∀ c o : Comparator, ∀ m om : Nat, c.major = o.major → c.minor = some m →
      o.minor = some om → m ≠ om →
      Version.change_type_first c o = if 0 < c.major then .Minor else .Major) ∧
    (∀ c o : Comparator, ∀ m p q : Nat, c.major = o.major → c.minor = some m →
      o.minor = some m → c.patch = some p → o.patch = some q → p ≠ q →
      Version.change_type_first c o =
        if 0 < c.major then .Patch else if 0 < m then .Minor else .Major) ∧
    (∀ c o : Comparator, ∀ m p : Nat, c.major = o.major → c.minor = some m →
      o.minor = some m → c.patch = some p → o.patch = some p →
      Version.change_type_first c o = .None) ∧
    (Version.new "1.2.3" = .ok ⟨⟨[⟨.Caret, 1, some 2, some 3, ""⟩]⟩⟩ ∧
      Version.new "1.2" = .ok ⟨⟨[⟨.Caret, 1, some 2, none, ""⟩]⟩⟩ ∧
      Version.change_type ⟨⟨[⟨.Caret, 1, some 2, some 3, ""⟩]⟩⟩
        ⟨⟨[⟨.Caret, 1, some 2, none, ""⟩]⟩⟩ = .ok .Unknown ∧
      Version.change_type ⟨⟨[⟨.Caret, 1, some 2, none, ""⟩]⟩⟩
        ⟨⟨[⟨.Caret, 1, some 2, some 3, ""⟩]⟩⟩ = .ok .Unknown) := by
  refine ⟨?_, ?_, ?_, ?_, by rfl, by rfl, by rfl, by rfl⟩
  · intro c o h
    simp [Version.change_type_first, h]
  · intro c o m om h hm hom hne
    simp [Version.change_type_first, h, hm, hom, hne]
  · intro c o m p q h hm hom hp hq hne
    simp [Version.change_type_first, h, hm, hom, hp, hq, hne]
  · intro c o m p h hm hom hp hq
    simp [Version.change_type_first, h, hm, hom, hp, hq]

/-- C6 witness: the classifier rules instantiated — majors 1 vs 2 give
Major; 1.2 vs 1.3 give Minor; 1.2.3 vs 1.2.4 give Patch; 1.2.3 vs
itself gives None. -/
theorem c6_change_type_rules_witness :
    Version.change_type_first ⟨.Caret, 1, none, none, ""⟩ ⟨.Caret, 2, none, none, ""⟩ =
        .Major ∧
    Version.change_type_first ⟨.Caret, 1, some 2, none, ""⟩ ⟨.Caret, 1, some 3, none, ""⟩ =
        (if 0 < 1 then Change.Minor else Change.Major) ∧
    Version.change_type_first ⟨.Caret, 1, some 2, some 3, ""⟩
        ⟨.Caret, 1, some 2, some 4, ""⟩ =
        (if 0 < 1 then Change.Patch else if 0 < 2 then Change.Minor else Change.Major) ∧
    Version.change_type_first ⟨.Caret, 1, some 2, some 3, ""⟩
        ⟨.Caret, 1, some 2, some 3, ""⟩ = .None :=
  ⟨c6_change_type_rules.1 _ _ (by decide),
    c6_change_type_rules.2.1 _ _ 2 3 rfl rfl rfl (by decide),
    c6_change_type_rules.2.2.1 _ _ 2 3 4 rfl rfl rfl rfl rfl (by decide),
    c6_change_type_rules.2.2.2.1 _ _ 2 3 rfl rfl rfl rfl rfl⟩

/-- C10: with newline-free components, the labeled incomparable-change
record contains two newlines (its format string ends in a newline before
writeln! appends the terminator, leaving one extra empty line), while
the unlabeled change record and all bump/drop/add/remove records, with
or without a table label, occupy exactly one line. -/
theorem c10_record_line_shapes (ct pn lv pv cv : String)
    (hct : newline_count ct = 0) (hpn : newline_count pn = 0)
    (hlv : newline_count lv = 0) (hpv : newline_count pv = 0)
    (hcv : newline_count cv = 0) :
    newline_count (File.change_line ct pn (some lv) pv cv) = 2 ∧
    newline_count (File.change_line ct pn none pv cv) = 1 ∧
    newline_count (File.bump_line ct pn (some lv) pv cv) = 1 ∧
    newline_count (File.bump_line ct pn none pv cv) = 1 ∧
    newline_count (File.drop_line ct pn (some lv) pv cv) = 1 ∧
    newline_count (File.drop_line ct pn none pv cv) = 1 ∧
    newline_count (File.add_line pn (some lv) cv) = 1 ∧
    newline_count (File.add_line pn none cv) = 1 ∧
    newline_count (File.remove_line pn (some lv) pv) = 1 ∧
    newline_count (File.remove_line pn none pv) = 1 := by
  simp only [newline_count] at hct hpn hlv hpv hcv
  have hb : (" bump ".data).count '\n' = 0 := by decide
  have hd : (" drop ".data).count '\n' = 0 := by decide
  have hc : (" change ".data).count '\n' = 0 := by decide
  have hf : (" from ".data).count '\n' = 0 := by decide
  have ht : (" to ".data).count '\n' = 0 := by decide
  have hs : (" ".data).count '\n' = 0 := by decide
  have hn : ("\n".data).count '\n' = 1 := by decide
  have ha : ("✨ add ".data).count '\n' = 0 := by decide
  have hr : ("🗑️ remove ".data).count '\n' = 0 := by decide
  refine ⟨?_, ?_, ?_, ?_, ?_, ?_, ?_, ?_, ?_, ?_⟩ <;>
    simp [newline_count, File.change_line, File.bump_line, File.drop_line,
      File.add_line, File.remove_line, String.data_append, List.count_append,
      hct, hpn, hlv, hpv, hcv, hb, hd, hc, hf, ht, hs, hn, ha, hr]

/-- C10 witness: the line shapes instantiated at the dev-dependencies
label with concrete newline-free components. -/
theorem c10_record_line_shapes_witness :
    newline_count (File.change_line "❗" "x" (some "(🖥️ dev-dependencies)") "1" "2") = 2 ∧
    newline_count (File.change_line "❗" "x" none "1" "2") = 1 ∧
    newline_count (File.bump_line "❗" "x" (some "(🖥️ dev-dependencies)") "1" "2") = 1 ∧
    newline_count (File.bump_line "❗" "x" none "1" "2") = 1 ∧
    newline_count (File.drop_line "❗" "x" (some "(🖥️ dev-dependencies)") "1" "2") = 1 ∧
    newline_count (File.drop_line "❗" "x" none "1" "2") = 1 ∧
    newline_count (File.add_line "x" (some "(🖥️ dev-dependencies)") "2") = 1 ∧
    newline_count (File.add_line "x" none "2") = 1 ∧
    newline_count (File.remove_line "x" (some "(🖥️ dev-dependencies)") "1") = 1 ∧
    newline_count (File.remove_line "x" none "1") = 1 :=
  c10_record_line_shapes "❗" "x" "(🖥️ dev-dependencies)" "1" "2"
    (by decide) (by decide) (by decide) (by decide) (by decide)

theorem comparator_ranges_foldl_start (cs : List Comparator) (s e : Semver.Version) :
    (cs.foldl Version.comparator_ranges_step (s, e)).1 =
      (lower_starts cs).foldl Version.vmax_step s := by
  induction cs generalizing s e with
  | nil => simp [lower_starts]
  | cons c t ih =>
    simp only [List.foldl_cons]
    rw [ih]
    cases hb : Version.updates_start c.op <;>
      simp [lower_starts, List.filter_cons, hb, Version.comparator_ranges_step]

theorem comparator_ranges_foldl_stop (cs : List Comparator) (s e : Semver.Version) :
    (cs.foldl Version.comparator_ranges_step (s, e)).2 =
      (upper_ends cs).foldl Version.vmin_step e := by
  induction cs generalizing s e with
  | nil => simp [upper_ends]
  | cons c t ih =>
    simp only [List.foldl_cons]
    rw [ih]
    cases hb : Version.updates_stop c.op <;>
      simp [upper_ends, List.filter_cons, hb, Version.comparator_ranges_step]

theorem comparator_ranges_start_eq (cs : List Comparator) :
    (Version.comparator_ranges ⟨⟨cs⟩⟩).start =
      (lower_starts cs).foldl Version.vmax_step ⟨0, 0, 0⟩ := by
  unfold Version.comparator_ranges
  exact comparator_ranges_foldl_start cs _ _

theorem comparator_ranges_stop_eq (cs : List Comparator) :
    (Version.comparator_ranges ⟨⟨cs⟩⟩).stop =
      (upper_ends cs).foldl Version.vmin_step ⟨U64MAX, U64MAX, U64MAX⟩ := by
  unfold Version.comparator_ranges
  exact comparator_ranges_foldl_stop cs _ _

theorem foldl_vmax_mem (l : List Semver.Version) (s : Semver.Version) :
    l.foldl Version.vmax_step s = s ∨ l.foldl Version.vmax_step s ∈ l := by
  induction l generalizing s with
  | nil => exact Or.inl rfl
  | cons a t ih =>
    simp only [List.foldl_cons]
    rcases ih (Version.vmax_step s a) with h | h
    · rw [h]
      unfold Version.vmax_step
      split_ifs
      · exact Or.inr (List.mem_cons_self a t)
      · exact Or.inl rfl
    · exact Or.inr (List.mem_cons_of_mem a h)

theorem foldl_vmax_ge (l : List Semver.Version) (s : Semver.Version) :
    s.vle (l.foldl Version.vmax_step s) ∧
      ∀ v ∈ l, v.vle (l.foldl Version.vmax_step s) := by
  induction l generalizing s with
  | nil => exact ⟨vle_refl s, by simp⟩
  | cons a t ih =>
    simp only [List.foldl_cons]
    obtain ⟨h1, h2⟩ := ih (Version.vmax_step s a)
    have hsa : s.vle (Version.vmax_step s a) := by
      unfold Version.vmax_step
      split_ifs with h
      · exact vle_of_vlt h
      · exact vle_refl s
    have haa : a.vle (Version.vmax_step s a) := by
      unfold Version.vmax_step
      split_ifs with h
      · exact vle_refl a
      · exact vle_of_not_vlt h
    refine ⟨vle_trans hsa h1, ?_⟩
    intro v hv
    rcases List.mem_cons.mp hv with rfl | hv
    · exact vle_trans haa h1
    · exact h2 v hv

theorem foldl_vmin_mem (l : List Semver.Version) (s : Semver.Version) :
    l.foldl Version.vmin_step s = s ∨ l.foldl Version.vmin_step s ∈ l := by
  induction l generalizing s with
  | nil => exact Or.inl rfl
  | cons a t ih =>
    simp only [List.foldl_cons]
    rcases ih (Version.vmin_step s a) with h | h
    · rw [h]
      unfold Version.vmin_step
      split_ifs
      · exact Or.inr (List.mem_cons_self a t)
      · exact Or.inl rfl
    · exact Or.inr (List.mem_cons_of_mem a h)

theorem foldl_vmin_le (l : List Semver.Version) (s : Semver.Version) :
    (l.foldl Version.vmin_step s).vle s ∧
      ∀ v ∈ l, (l.foldl Version.vmin_step s).vle v := by
  induction l generalizing s with
  | nil => exact ⟨vle_refl s, by simp⟩
  | cons a t ih =>
    simp only [List.foldl_cons]
    obtain ⟨h1, h2⟩ := ih (Version.vmin_step s a)
    have hsa : (Version.vmin_step s a).vle s := by
      unfold Version.vmin_step
      split_ifs with h
      · exact vle_of_vlt h
      · exact vle_refl s
    have haa : (Version.vmin_step s a).vle a := by
      unfold Version.vmin_step
      split_ifs with h
      · exact vle_refl a
      · exact vle_of_not_vlt h
    refine ⟨vle_trans h1 hsa, ?_⟩
    intro v hv
    rcases List.mem_cons.mp hv with rfl | hv
    · exact vle_trans h1 haa
    · exact h2 v hv

theorem comparator_stop_le_max (c : Comparator) (h : comp_bounded c = true) :
    (Version.comparator_range c).stop.vle ⟨U64MAX, U64MAX, U64MAX⟩ := by
  obtain ⟨op, major, minor, patch, pre⟩ := c
  simp only [comp_bounded, Bool.and_eq_true, decide_eq_true_eq] at h
  obtain ⟨⟨h1, h2⟩, h3⟩ := h
  cases op <;> rcases minor with _ | ⟨_ | m⟩ <;> rcases patch with _ | p <;>
    rcases major with _ | M <;>
    simp_all [Version.comparator_range, Version.exact_range, Version.greater_range,
      Version.greater_or_equal_range, Version.less_range, Version.less_or_equal_range,
      Version.tilde_range, Version.caret_range, Version.wildcard_range,
      Version.version_with_bumped_major, Version.version_with_bumped_minor,
      Version.version_with_bumped_patch, Semver.Version.vle, Semver.Version.vlt,
      Semver.Version.mk.injEq] <;> omega

/-- C1: the intersected interval of a multi-comparator requirement has
start equal to the maximum of the starts of the lower-bound-contributing
comparators (when any exist) and end equal to the minimum of the ends of
the upper-bound-contributing comparators (when any exist, with all
components below u64::MAX so the bump helpers cannot overflow); in
particular ">=1.2.3, <3, >=1.4.6, <1.4.7" intersects to [1.4.6, 1.4.7)
and range-compares Equal against "=1.4.6". -/
theorem c1_multi_comparator_intersection :
    (∀ cs : List Comparator, lower_starts cs ≠ [] →
      (Version.comparator_ranges ⟨⟨cs⟩⟩).start ∈ lower_starts cs ∧
        ∀ v ∈ lower_starts cs, v.vle (Version.comparator_ranges ⟨⟨cs⟩⟩).start) ∧
    (∀ cs : List Comparator, (∀ c ∈ cs, comp_bounded c = true) → upper_ends cs ≠ [] →
      (Version.comparator_ranges ⟨⟨cs⟩⟩).stop ∈ upper_ends cs ∧
        ∀ v ∈ upper_ends cs, (Version.comparator_ranges ⟨⟨cs⟩⟩).stop.vle v) ∧
    (Version.new ">=1.2.3, <3, >=1.4.6, <1.4.7" =
        .ok ⟨⟨[⟨.GreaterEq, 1, some 2, some 3, ""⟩, ⟨.Less, 3, none, none, ""⟩,
          ⟨.GreaterEq, 1, some 4, some 6, ""⟩, ⟨.Less, 1, some 4, some 7, ""⟩]⟩⟩ ∧
      Version.comparator_ranges
        ⟨⟨[⟨.GreaterEq, 1, some 2, some 3, ""⟩, ⟨.Less, 3, none, none, ""⟩,
          ⟨.GreaterEq, 1, some 4, some 6, ""⟩, ⟨.Less, 1, some 4, some 7, ""⟩]⟩⟩ =
        ⟨⟨1, 4, 6⟩, ⟨1, 4, 7⟩⟩ ∧
      Version.new "=1.4.6" = .ok ⟨⟨[⟨.Exact, 1, some 4, some 6, ""⟩]⟩⟩ ∧
      Version.pcmp
        ⟨⟨[⟨.GreaterEq, 1, some 2, some 3, ""⟩, ⟨.Less, 3, none, none, ""⟩,
          ⟨.GreaterEq, 1, some 4, some 6, ""⟩, ⟨.Less, 1, some 4, some 7, ""⟩]⟩⟩
        ⟨⟨[⟨.Exact, 1, some 4, some 6, ""⟩]⟩⟩ = some .eq) := by
  refine ⟨?_, ?_, by rfl, by decide, by rfl, by decide⟩
  · intro cs hne
    constructor
    · rw [comparator_ranges_start_eq]
      rcases foldl_vmax_mem (lower_starts cs) ⟨0, 0, 0⟩ with h | h
      · rw [h]
        cases hl : lower_starts cs with
        | nil => exact absurd hl hne
        | cons a t =>
          have ha : a.vle (⟨0, 0, 0⟩ : Semver.Version) := by
            have hm := (foldl_vmax_ge (lower_starts cs) ⟨0, 0, 0⟩).2 a
              (by rw [hl]; exact List.mem_cons_self a t)
            rwa [h] at hm
          have hz : a = ⟨0, 0, 0⟩ := vle_antisymm ha (zero_vle a)
          rw [← hz]
          exact List.mem_cons_self a t
      · exact h
    · intro v hv
      rw [comparator_ranges_start_eq]
      exact (foldl_vmax_ge _ _).2 v hv
  · intro cs hbound hne
    have hmax : ∀ v ∈ upper_ends cs, v.vle ⟨U64MAX, U64MAX, U64MAX⟩ := by
      intro v hv
      simp only [upper_ends, List.mem_map, List.mem_filter] at hv
      obtain ⟨c, ⟨hc, _⟩, rfl⟩ := hv
      exact comparator_stop_le_max c (hbound c hc)
    constructor
    · rw [comparator_ranges_stop_eq]
      rcases foldl_vmin_mem (upper_ends cs) ⟨U64MAX, U64MAX, U64MAX⟩ with h | h
      · rw [h]
        cases hl : upper_ends cs with
        | nil => exact absurd hl hne
        | cons a t =>
          have h1 : (⟨U64MAX, U64MAX, U64MAX⟩ : Semver.Version).vle a := by
            have hm := (foldl_vmin_le (upper_ends cs) ⟨U64MAX, U64MAX, U64MAX⟩).2 a
              (by rw [hl]; exact List.mem_cons_self a t)
            rwa [h] at hm
          have h2 : a.vle ⟨U64MAX, U64MAX, U64MAX⟩ := hmax a
            (by rw [hl]; exact List.mem_cons_self a t)
          have hz : a = ⟨U64MAX, U64MAX, U64MAX⟩ := vle_antisymm h2 h1
          rw [← hz]
          exact List.mem_cons_self a t
      · exact h
    · intro v hv
      rw [comparator_ranges_stop_eq]
      exact (foldl_vmin_le _ _).2 v hv

/-- C1 witness: the intersection bounds instantiated at the comparators
of ">=1.2.3, <3, >=1.4.6, <1.4.7". -/
theorem c1_multi_comparator_intersection_witness :
    ((Version.comparator_ranges
        ⟨⟨[⟨.GreaterEq, 1, some 2, some 3, ""⟩, ⟨.Less, 3, none, none, ""⟩,
          ⟨.GreaterEq, 1, some 4, some 6, ""⟩, ⟨.Less, 1, some 4, some 7, ""⟩]⟩⟩).start ∈
      lower_starts [⟨.GreaterEq, 1, some 2, some 3, ""⟩, ⟨.Less, 3, none, none, ""⟩,
        ⟨.GreaterEq, 1, some 4, some 6, ""⟩, ⟨.Less, 1, some 4, some 7, ""⟩]) ∧
    ((Version.comparator_ranges
        ⟨⟨[⟨.GreaterEq, 1, some 2, some 3, ""⟩, ⟨.Less, 3, none, none, ""⟩,
          ⟨.GreaterEq, 1, some 4, some 6, ""⟩, ⟨.Less, 1, some 4, some 7, ""⟩]⟩⟩).stop ∈
      upper_ends [⟨.GreaterEq, 1, some 2, some 3, ""⟩, ⟨.Less, 3, none, none, ""⟩,
        ⟨.GreaterEq, 1, some 4, some 6, ""⟩, ⟨.Less, 1, some 4, some 7, ""⟩]) :=
  ⟨(c1_multi_comparator_intersection.1 _ (by decide)).1,
    (c1_multi_comparator_intersection.2.1 _ (by decide) (by decide)).1⟩

theorem lookup_of_mem_nodup {β : Type} (l : List (String × β)) (k : String) (v : β)
    (hnd : (l.map Prod.fst).Nodup) (hm : (k, v) ∈ l) : l.lookup k = some v := by
  induction l with
  | nil => cases hm
  | cons p t ih =>
    obtain ⟨k1, v1⟩ := p
    rcases List.mem_cons.mp hm with h | h
    · cases h
      simp [List.lookup]
    · have hk : k ≠ k1 := by
        intro he
        subst he
        exact (List.nodup_cons.mp hnd).1 (List.mem_map.mpr ⟨(k, v), h, rfl⟩)
      simp only [List.lookup, beq_eq_false_iff_ne.mpr hk]
      exact ih (List.nodup_cons.mp hnd).2 h

theorem mem_of_lookup_eq_some {β : Type} (l : List (String × β)) (k : String) (v : β)
    (h : l.lookup k = some v) : (k, v) ∈ l := by
  induction l with
  | nil => simp [List.lookup] at h
  | cons p t ih =>
    obtain ⟨k1, v1⟩ := p
    by_cases he : k = k1
    · subst he
      simp [List.lookup] at h
      subst h
      exact List.mem_cons_self _ _
    · simp only [List.lookup, beq_eq_false_iff_ne.mpr he] at h
      exact List.mem_cons_of_mem _ (ih h)

theorem exists_lookup_of_mem_keys {β : Type} (l : List (String × β)) (k : String)
    (h : k ∈ l.map Prod.fst) : ∃ v, l.lookup k = some v := by
  induction l with
  | nil => simp at h
  | cons p t ih =>
    obtain ⟨k1, v1⟩ := p
    by_cases he : k = k1
    · subst he
      exact ⟨v1, by simp [List.lookup]⟩
    · simp only [List.map_cons, List.mem_cons] at h
      rcases h with h | h
      · exact absurd h he
      · obtain ⟨v, hv⟩ := ih h
        exact ⟨v, by simp only [List.lookup, beq_eq_false_iff_ne.mpr he]; exact hv⟩

theorem new_ok_of_parses_simple (str : String)
    (h : parses_nonempty (.Simple str) = true) :
    ∃ ver : Version, Version.new str = .ok ver ∧ ver.req.comparators ≠ [] := by
  simp only [parses_nonempty] at h
  cases hp : parse_version_req str with
  | none => rw [hp] at h; cases h
  | some cs =>
    cases cs with
    | nil => rw [hp] at h; cases h
    | cons c t =>
      exact ⟨⟨⟨c :: t⟩⟩, by unfold Version.new; rw [hp], by simp⟩

theorem new_ok_of_parses_detailed (d : DetailedCargoDependency)
    (h : parses_nonempty (.Detailed d) = true) :
    ∃ ver : Version, Version.new d.version = .ok ver ∧ ver.req.comparators ≠ [] := by
  simp only [parses_nonempty] at h
  cases hp : parse_version_req d.version with
  | none => rw [hp] at h; cases h
  | some cs =>
    cases cs with
    | nil => rw [hp] at h; cases h
    | cons c t =>
      exact ⟨⟨⟨c :: t⟩⟩, by unfold Version.new; rw [hp], by simp⟩

theorem get_version_ok (v : CargoDependencyValue) (h : parses_nonempty v = true) :
    ∃ ver : Version, File.get_version v = .ok ver ∧ ver.req.comparators ≠ [] := by
  cases v with
  | Simple str =>
    obtain ⟨ver, hv, hne⟩ := new_ok_of_parses_simple str h
    exact ⟨ver, by simp [File.get_version, hv, Except.mapError], hne⟩
  | Detailed d =>
    obtain ⟨ver, hv, hne⟩ := new_ok_of_parses_detailed d h
    exact ⟨ver, by simp [File.get_version, hv, Except.mapError], hne⟩
  | Git g =>
    exact ⟨⟨⟨[⟨.Caret, 0, none, none, ""⟩]⟩⟩, by rfl, by simp⟩

theorem change_type_ok (a b : Version) (ha : a.req.comparators ≠ [])
    (hb : b.req.comparators ≠ []) : ∃ ct, Version.change_type a b = .ok ct := by
  unfold Version.change_type
  cases hca : a.req.comparators with
  | nil => exact absurd hca ha
  | cons c t =>
    cases hcb : b.req.comparators with
    | nil => exact absurd hcb hb
    | cons o u => exact ⟨Version.change_type_first c o, rfl⟩

theorem pcmp_self (v : Version) : Version.pcmp v v = some .eq := by
  unfold Version.pcmp
  exact range_compare_self _

theorem get_changes_self (prev : List (String × CargoDependencyValue))
    (label : Option String) (cur : List (String × CargoDependencyValue))
    (pk : List String) (res : String) (w : Nat)
    (hsub : ∀ p ∈ cur, prev.lookup p.1 = some p.2)
    (hpar : ∀ p ∈ cur, parses_nonempty p.2 = true) :
    File.get_changes_from_current_dependencies cur prev label pk res w =
      .ok (cur.foldl (fun acc p => acc.erase p.1) pk, res, w + 2 * File.git_count cur) := by
  induction cur generalizing pk res w with
  | nil => simp [File.get_changes_from_current_dependencies, File.git_count]
  | cons p t ih =>
    obtain ⟨name, value⟩ := p
    obtain ⟨ver, hver, hne⟩ := get_version_ok value (hpar _ (List.mem_cons_self _ _))
    obtain ⟨ct, hct⟩ := change_type_ok ver ver hne hne
    have hlk : prev.lookup name = some value := hsub _ (List.mem_cons_self _ _)
    simp only [File.get_changes_from_current_dependencies, hver, hlk, hct,
      pcmp_self, File.comparison_line, String.append_empty]
    rw [ih _ _ _ (fun q hq => hsub q (List.mem_cons_of_mem _ hq))
      (fun q hq => hpar q (List.mem_cons_of_mem _ hq))]
    simp only [List.foldl_cons, File.git_count, List.map_cons, List.sum_cons]
    refine congrArg _ (congrArg _ (congrArg _ ?_))
    omega

theorem foldl_erase_self (l : List (String × CargoDependencyValue))
    (hnd : (l.map Prod.fst).Nodup) :
    l.foldl (fun acc p => acc.erase p.1) (l.map Prod.fst) = [] := by
  induction l with
  | nil => rfl
  | cons p t ih =>
    obtain ⟨k, v⟩ := p
    simp only [List.map_cons, List.foldl_cons, List.erase_cons_head]
    exact ih (List.nodup_cons.mp hnd).2

theorem get_dependency_self (l : List (String × CargoDependencyValue))
    (label : Option String) (res : String) (w : Nat) (hwf : table_wf l) :
    File.get_dependency_changes_versus_previous l l label res w =
      .ok (res, w + 2 * File.git_count l) := by
  obtain ⟨hnd, hpar⟩ := hwf
  unfold File.get_dependency_changes_versus_previous
  rw [get_changes_self l label l (l.map Prod.fst) res w
    (fun p hp => lookup_of_mem_nodup l p.1 p.2 hnd hp) hpar]
  rw [foldl_erase_self l hnd]
  rfl

theorem get_optional_self (o : Option (List (String × CargoDependencyValue)))
    (label : Option String) (res : String) (w : Nat) (hwf : opt_table_wf o) :
    ∃ dw, File.get_optional_dependency_changes_versus_previous o o label res w =
      .ok (res, w + dw) := by
  cases o with
  | none => exact ⟨0, by simp [File.get_optional_dependency_changes_versus_previous]⟩
  | some l =>
    exact ⟨2 * File.git_count l, get_dependency_self l label res w hwf⟩

/-- C7 (amended): diffing a manifest against itself yields exactly the
"no changes" sentinel line, provided every entry is well-formed (keys
distinct, every version string parsing to at least one comparator) —
each Equal comparison emits no record; an identical pair containing a
zero-comparator requirement such as bare "*" instead hits the
first-comparator panic, see the counterexample. -/
theorem c7_identical_sets_sentinel (f : File) (hwf : f.wf) :
    ∃ w, File.print_changes_versus_previous_version f f =
      .ok ("🧹 No changes detected.\n", w) := by
  obtain ⟨hw1, hw2, hw3, hw4⟩ := hwf
  obtain ⟨d1, h1⟩ := get_optional_self f.dependencies none "" 0 hw1
  obtain ⟨d2, h2⟩ := get_optional_self f.dev_dependencies (some "(🖥️ dev-dependencies)")
    "" (0 + d1) hw3
  obtain ⟨d3, h3⟩ := get_optional_self f.build_dependencies (some "(🧱 build-dependencies)")
    "" (0 + d1 + d2) hw2
  obtain ⟨d4, h4⟩ := get_optional_self f.workspace_dependencies
    (some "(🗄️ workspace-dependencies)") "" (0 + d1 + d2 + d3) hw4
  refine ⟨0 + d1 + d2 + d3 + d4, ?_⟩
  unfold File.print_changes_versus_previous_version
  simp only [h1, h2, h3, h4]
  rfl

/-- C7 witness: the self-diff of a concrete two-table manifest returns
the sentinel line. -/
theorem c7_identical_sets_sentinel_witness :
    ∃ w, File.print_changes_versus_previous_version
      ⟨some [("ahash", .Simple "0.8.11"), ("serde", .Simple "1.0.215")], none,
        some [("assert_fs", .Detailed ⟨"1.1.2", none⟩), ("wiremock", .Git ⟨"url", none⟩)],
        none⟩
      ⟨some [("ahash", .Simple "0.8.11"), ("serde", .Simple "1.0.215")], none,
        some [("assert_fs", .Detailed ⟨"1.1.2", none⟩), ("wiremock", .Git ⟨"url", none⟩)],
        none⟩ = .ok ("🧹 No changes detected.\n", w) :=
  c7_identical_sets_sentinel _ ⟨⟨by decide, by decide⟩, trivial, ⟨by decide, by decide⟩, trivial⟩

/-- C7 counterexample: two identical one-table manifests whose single
entry is the bare wildcard "*" (zero comparators) do not produce the
sentinel — change_type's expect on the first comparator fails, modelled
as the error value, so the claim does not hold for every identical pair
of dependency sets. -/
theorem c7_counterexample :
    File.print_changes_versus_previous_version
      ⟨some [("a", .Simple "*")], none, none, none⟩
      ⟨some [("a", .Simple "*")], none, none, none⟩ =
      .error "Index should be valid" := by rfl

theorem sum_map_erase (pk : List String) (k : String) (f : String → Nat)
    (hk : k ∈ pk) : (pk.map f).sum = f k + (((pk.erase k).map f)).sum := by
  have hp := (List.perm_cons_erase hk).map f
  rw [hp.sum_eq]
  rfl

theorem removed_lines_ok (prev : List (String × CargoDependencyValue))
    (label : Option String) (pk : List String) (res : String) (w : Nat)
    (hks : ∀ k ∈ pk, k ∈ prev.map Prod.fst)
    (hpar : ∀ p ∈ prev, parses_nonempty p.2 = true) :
    ∃ out, File.removed_lines prev pk label res w =
      .ok (out, w + (pk.map (File.lookup_git_warn prev)).sum) := by
  induction pk generalizing res w with
  | nil => exact ⟨res, by simp [File.removed_lines]⟩
  | cons k rest ih =>
    obtain ⟨v, hlk⟩ := exists_lookup_of_mem_keys prev k (hks k (List.mem_cons_self _ _))
    have hvmem := mem_of_lookup_eq_some prev k v hlk
    have hvp : parses_nonempty v = true := hpar _ hvmem
    have hrest : ∀ k2 ∈ rest, k2 ∈ prev.map Prod.fst :=
      fun k2 hk2 => hks k2 (List.mem_cons_of_mem _ hk2)
    have hlg : File.lookup_git_warn prev k = File.git_warn v := by
      simp [File.lookup_git_warn, hlk]
    cases v with
    | Simple str =>
      obtain ⟨ver, hver, _⟩ := new_ok_of_parses_simple str hvp
      obtain ⟨out, hout⟩ := ih (res ++ File.remove_line k label ver.display) w hrest
      refine ⟨out, ?_⟩
      simp only [File.removed_lines, hlk, hver, hout, List.map_cons, List.sum_cons, hlg,
        File.git_warn]
      refine congrArg _ (congrArg _ ?_)
      omega
    | Detailed d =>
      obtain ⟨ver, hver, _⟩ := new_ok_of_parses_detailed d hvp
      obtain ⟨out, hout⟩ := ih (res ++ File.remove_line (d.package.getD k) label ver.display)
        w hrest
      refine ⟨out, ?_⟩
      simp only [File.removed_lines, hlk, hver, hout, List.map_cons, List.sum_cons, hlg,
        File.git_warn]
      refine congrArg _ (congrArg _ ?_)
      omega
    | Git g =>
      obtain ⟨out, hout⟩ := ih
        (res ++ File.remove_line (g.package.getD k) label
          (Version.display ⟨⟨[⟨.Caret, 0, none, none, ""⟩]⟩⟩)) (w + 1) hrest
      refine ⟨out, ?_⟩
      simp only [File.removed_lines, hlk]
      rw [show Version.new "0" = .ok ⟨⟨[⟨.Caret, 0, none, none, ""⟩]⟩⟩ from rfl]
      simp only [hout, List.map_cons, List.sum_cons, hlg, File.git_warn]
      refine congrArg _ (congrArg _ ?_)
      omega

theorem key_sum (prev : List (String × CargoDependencyValue))
    (hnd : (prev.map Prod.fst).Nodup) :
    ((prev.map Prod.fst).map (File.lookup_git_warn prev)).sum = File.git_count prev := by
  induction prev with
  | nil => rfl
  | cons p t ih =>
    obtain ⟨k, v⟩ := p
    obtain ⟨hk, hnd2⟩ := List.nodup_cons.mp hnd
    have hhead : File.lookup_git_warn ((k, v) :: t) k = File.git_warn v := by
      simp [File.lookup_git_warn, List.lookup]
    have htail : (t.map Prod.fst).map (File.lookup_git_warn ((k, v) :: t)) =
        (t.map Prod.fst).map (File.lookup_git_warn t) := by
      refine List.map_congr_left ?_
      intro k2 hk2
      have hne : k2 ≠ k := fun he => hk (he ▸ hk2)
      simp only [File.lookup_git_warn, List.lookup, beq_eq_false_iff_ne.mpr hne]
    simp only [List.map_cons, List.sum_cons, hhead, htail, ih hnd2, File.git_count]

theorem get_changes_warns (prev : List (String × CargoDependencyValue))
    (label : Option String) (cur : List (String × CargoDependencyValue))
    (pk : List String) (res : String) (w : Nat)
    (hndc : (cur.map Prod.fst).Nodup) (hpk : pk.Nodup)
    (hparc : ∀ p ∈ cur, parses_nonempty p.2 = true)
    (hparp : ∀ p ∈ prev, parses_nonempty p.2 = true)
    (hinv : ∀ p ∈ cur, p.1 ∈ prev.map Prod.fst → p.1 ∈ pk)
    (hks : ∀ k ∈ pk, k ∈ prev.map Prod.fst) :
    ∃ pk2 res2 w2,
      File.get_changes_from_current_dependencies cur prev label pk res w =
        .ok (pk2, res2, w2) ∧
      w2 + (pk2.map (File.lookup_git_warn prev)).sum =
        w + File.git_count cur + (pk.map (File.lookup_git_warn prev)).sum ∧
      (∀ k ∈ pk2, k ∈ prev.map Prod.fst) ∧ pk2.Nodup := by
  induction cur generalizing pk res w with
  | nil =>
    refine ⟨pk, res, w, by simp [File.get_changes_from_current_dependencies], ?_, hks, hpk⟩
    simp [File.git_count]
  | cons p t ih =>
    obtain ⟨name, value⟩ := p
    obtain ⟨hnm, hndt⟩ := List.nodup_cons.mp hndc
    obtain ⟨ver, hver, hne⟩ := get_version_ok value (hparc _ (List.mem_cons_self _ _))
    have hparct : ∀ q ∈ t, parses_nonempty q.2 = true :=
      fun q hq => hparc q (List.mem_cons_of_mem _ hq)
    cases hlk : prev.lookup name with
    | none =>
      have hinvt : ∀ q ∈ t, q.1 ∈ prev.map Prod.fst → q.1 ∈ pk :=
        fun q hq => hinv q (List.mem_cons_of_mem _ hq)
      obtain ⟨pk2, res2, w2, heq, hsum, hmem, hnd2⟩ :=
        ih pk (res ++ File.add_line (File.package_display_name name value) label
          ver.display) (w + File.git_warn value) hndt hpk hparct hinvt hks
      refine ⟨pk2, res2, w2, ?_, ?_, hmem, hnd2⟩
      · simp only [File.get_changes_from_current_dependencies, hver, hlk]
        exact heq
      · simp only [File.git_count, List.map_cons, List.sum_cons] at hsum ⊢
        omega
    | some pv =>
      have hpvmem := mem_of_lookup_eq_some prev name pv hlk
      obtain ⟨pver, hpver, hpne⟩ := get_version_ok pv (hparp _ hpvmem)
      obtain ⟨ct, hct⟩ := change_type_ok ver pver hne hpne
      have hnamepk : name ∈ pk :=
        hinv _ (List.mem_cons_self _ _) (List.mem_map.mpr ⟨(name, pv), hpvmem, rfl⟩)
      have hinvt : ∀ q ∈ t, q.1 ∈ prev.map Prod.fst → q.1 ∈ pk.erase name := by
        intro q hq hqp
        have hqn : q.1 ≠ name := by
          intro he
          exact hnm (List.mem_map.mpr ⟨q, hq, he⟩)
        exact (List.mem_erase_of_ne hqn).mpr (hinv q (List.mem_cons_of_mem _ hq) hqp)
      have hkst : ∀ k ∈ pk.erase name, k ∈ prev.map Prod.fst :=
        fun k hk => hks k (List.mem_of_mem_erase hk)
      obtain ⟨pk2, res2, w2, heq, hsum, hmem, hnd2⟩ :=
        ih (pk.erase name)
          (res ++ File.comparison_line (Version.pcmp ver pver) ct.display
            (File.package_display_name name value) label pver.display ver.display)
          (w + File.git_warn value + File.git_warn pv) hndt (hpk.erase name) hparct
          hinvt hkst
      refine ⟨pk2, res2, w2, ?_, ?_, hmem, hnd2⟩
      · simp only [File.get_changes_from_current_dependencies, hver, hlk, hpver, hct]
        exact heq
      · have hsp : (pk.map (File.lookup_git_warn prev)).sum =
            File.lookup_git_warn prev name +
              (((pk.erase name).map (File.lookup_git_warn prev))).sum :=
          sum_map_erase pk name _ hnamepk
        have hlg : File.lookup_git_warn prev name = File.git_warn pv := by
          simp [File.lookup_git_warn, hlk]
        simp only [File.git_count, List.map_cons, List.sum_cons] at hsum ⊢
        omega

/-- C9: a git-flavored dependency never fails the diff — get_version
substitutes the sentinel requirement "0" (one caret comparator with
major 0) and counts one diagnostic; and for any pair of tables whose
non-git entries are well-formed (distinct keys, versions parsing to at
least one comparator), the diff completes with exactly one diagnostic
per git entry of the current table plus one per git entry of the
previous table. -/
theorem c9_git_sentinel :
    (∀ g : GitCargoDependency,
      File.get_version (.Git g) = .ok ⟨⟨[⟨.Caret, 0, none, none, ""⟩]⟩⟩) ∧
    (∀ (current previous : List (String × CargoDependencyValue)) (label : Option String),
      (current.map Prod.fst).Nodup → (previous.map Prod.fst).Nodup →
      (∀ p ∈ current, parses_nonempty p.2 = true) →
      (∀ p ∈ previous, parses_nonempty p.2 = true) →
      ∃ out, File.get_dependency_changes_versus_previous current previous label "" 0 =
        .ok (out, File.git_count current + File.git_count previous)) := by
  refine ⟨fun g => rfl, ?_⟩
  intro current previous label hndc hndp hparc hparp
  obtain ⟨pk2, res2, w2, heq, hsum, hmem, hnd2⟩ :=
    get_changes_warns previous label current (previous.map Prod.fst) "" 0 hndc hndp
      hparc hparp (fun p _ hp => hp) (fun k hk => hk)
  obtain ⟨out, hout⟩ := removed_lines_ok previous label pk2 res2 w2 hmem hparp
  have hN : w2 + (pk2.map (File.lookup_git_warn previous)).sum =
      File.git_count current + File.git_count previous := by
    rw [hsum, key_sum previous hndp]
    omega
  refine ⟨out, ?_⟩
  unfold File.get_dependency_changes_versus_previous
  simp only [heq]
  rw [hN] at hout
  exact hout

/-- C9 witness: a diff whose current table has one git and one plain
entry and whose previous table has one git entry completes with exactly
two diagnostics. -/
theorem c9_git_sentinel_witness :
    ∃ out, File.get_dependency_changes_versus_previous
      [("a", .Git ⟨"url", none⟩), ("b", .Simple "1.2.3")]
      [("c", .Git ⟨"url2", none⟩)] none "" 0 =
      .ok (out, File.git_count [("a", .Git ⟨"url", none⟩), ("b", .Simple "1.2.3")] +
        File.git_count [("c", .Git ⟨"url2", none⟩)]) :=
  c9_git_sentinel.2 _ _ none (by decide) (by decide) (by decide) (by decide)

end RustCrateDiffs
